import Mathlib

/-!
# Verification of the haulage traffic accountant

Shallow embedding of the core haulage pipeline (Go sources) and proofs of the
specification's testable properties.

* `classify` — five-tuple identity and canonicalization
  (internal/classify, `FiveTuple.MakeCanonical`).
* packet classification (`classifyPacket` in main.go).
* flow aggregation (`flowHandler` in main.go).
* subscriber aggregation predicates (`UserContext.ShouldLogNow`).
* the storage gateway (`LogUsage`, `UpdateBridgedState` in
  internal/storage/dbface.go).
* the enforcement evaluation (`verifyBalance`).
-/

namespace Haulage

/-! ## Endpoints and flows (gopacket model)

A gopacket `Endpoint` carries an endpoint type tag and raw bytes.  Equality is
structural.  `LessThan` orders by the type tag first and then by the raw bytes
lexicographically (gopacket uses `bytes.Compare`).  Raw bytes are modelled as a
list of naturals. -/

structure Endpoint where
  typ : Nat
  raw : List Nat
deriving DecidableEq, Repr

/-- Lexicographic byte-string comparison, `bytes.Compare a b < 0` in Go. -/
def rawLess : List Nat → List Nat → Bool
  | [], [] => false
  | [], _ :: _ => true
  | _ :: _, [] => false
  | a :: as, b :: bs =>
    if a < b then true
    else if b < a then false
    else rawLess as bs

/-- gopacket `Endpoint.LessThan`: order by type, then by raw bytes. -/
def Endpoint.lessThan (a b : Endpoint) : Bool :=
  (a.typ < b.typ) || (a.typ == b.typ && rawLess a.raw b.raw)

/-- A gopacket `Flow` is a pair of endpoints (the shared type tag of a
gopacket flow is carried on each endpoint here). -/
structure Flow where
  src : Endpoint
  dst : Endpoint
deriving DecidableEq, Repr

/-- gopacket `Flow.Reverse`. -/
def Flow.Reverse (f : Flow) : Flow := ⟨f.dst, f.src⟩

namespace classify

/-- internal/classify: completely describes a transport level network flow. -/
structure FiveTuple where
  Network : Flow
  Transport : Flow
  TransportProtocol : Nat
deriving DecidableEq, Repr

/-- Reverse both the network and transport endpoint pairs, keeping the
transport protocol. -/
def FiveTuple.reverse (t : FiveTuple) : FiveTuple :=
  ⟨t.Network.Reverse, t.Transport.Reverse, t.TransportProtocol⟩

/-- internal/classify `FiveTuple.MakeCanonical`: represent the flow in an
ordered form, possibly flipping the source and destination.  Loopback
(network src = network dst) is handled separately, ordering by the transport
endpoints; otherwise order by the network endpoints. -/
def FiveTuple.MakeCanonical (t : FiveTuple) : FiveTuple :=
  if t.Network.src = t.Network.dst then
    if t.Transport.src.lessThan t.Transport.dst then t
    else ⟨t.Network.Reverse, t.Transport.Reverse, t.TransportProtocol⟩
  else
    if t.Network.src.lessThan t.Network.dst then t
    else ⟨t.Network.Reverse, t.Transport.Reverse, t.TransportProtocol⟩

end classify


/-! ## Packet classification (main.go `classifyPacket`)

A decoded gopacket packet, restricted to the observations `classifyPacket`
makes: the link layer's type, the network layer (its type, the IPv4
`Protocol` / IPv6 `NextHeader` field, its flow and payload length), the
transport layer's flow, and the bytes of a DNS layer if one was decoded. -/

inductive LinkKind
  | ethernet
  | nonEthernet
deriving DecidableEq, Repr

/-- The network layer as `classifyPacket` sees it.  A gopacket layer whose
`LayerType` is IPv4 is a `*layers.IPv4` value (and likewise for IPv6), so the
failed-type-assertion branches of `classifyPacket` are unreachable and have no
representation here. -/
inductive NetLayer
  | v4 (flow : Flow) (protocol : Nat) (payloadLen : Nat)
  | v6 (flow : Flow) (nextHeader : Nat) (payloadLen : Nat)
  | other (flow : Flow) (payloadLen : Nat)
deriving DecidableEq, Repr

def NetLayer.flow : NetLayer → Flow
  | .v4 f _ _ => f
  | .v6 f _ _ => f
  | .other f _ => f

def NetLayer.payloadLen : NetLayer → Nat
  | .v4 _ _ n => n
  | .v6 _ _ n => n
  | .other _ n => n

/-- The decoded DNS layer contents as `ParseDns` consumes them: whether
`DecodeFromBytes` succeeds, the question list, opcode, response code, answer
count and the answers (IP bytes when present, TTL). -/
structure DnsLayer where
  decodeOk : Bool
  questions : List (List Nat)
  opCode : Nat
  responseCode : Nat
  anCount : Nat
  answers : List (Option (List Nat) × Nat)
deriving DecidableEq, Repr

structure Packet where
  link : Option LinkKind
  network : Option NetLayer
  transport : Option Flow
  dns : Option DnsLayer
deriving DecidableEq, Repr

namespace classify

/-- tdf/internal/classify `DnsMsg` (the capture timestamp is omitted). -/
structure DnsMsg where
  Flow : FiveTuple
  DnsQuery : List Nat
  DnsOpCode : Nat
  DnsResponseCode : Nat
  NumberOfAnswers : Nat
  DnsAnswerTTL : List Nat
  DnsAnswer : List (List Nat)
deriving DecidableEq, Repr

/-- tdf/internal/classify `ParseDns`: fails when the packet has no DNS layer,
when the DNS bytes do not decode, or when the question count differs from
one; otherwise it fills a normalized `DnsMsg`.  Answers whose IP is nil are
skipped when collecting the parallel TTL/IP lists. -/
def ParseDns (dns : Option DnsLayer) (flow : FiveTuple) : Except String DnsMsg :=
  match dns with
  | none => .error "No DNS payload detected"
  | some d =>
    if !d.decodeOk then .error "decode failure"
    else if d.questions.length ≠ 1 then .error "DNS layer is malformed"
    else
      .ok
        { Flow := flow
          DnsQuery := d.questions.headD []
          DnsOpCode := d.opCode
          DnsResponseCode := d.responseCode
          NumberOfAnswers := d.anCount
          DnsAnswerTTL :=
            if d.anCount > 0 then
              (d.answers.filter (fun a => a.1.isSome)).map (fun a => a.2)
            else []
          DnsAnswer :=
            if d.anCount > 0 then
              (d.answers.filter (fun a => a.1.isSome)).map (fun a => a.1.getD [])
            else [] }

end classify

/-- The success condition of `ParseDns`, spelled out: a DNS layer is present,
its bytes decode, and it carries exactly one question. -/
def dnsParses : Option DnsLayer → Bool
  | none => false
  | some d => d.decodeOk && d.questions.length == 1

/-- main.go `flowEvent`: a canonicalizable five-tuple in observed direction
plus the byte count of the network-layer payload. -/
structure flowEvent where
  flow : classify.FiveTuple
  amount : Nat
deriving DecidableEq, Repr

/-- main.go `classifyPacket`: drop packets with a non-ethernet link layer, no
network layer, or no transport layer; derive the transport protocol from the
IPv4 `Protocol` or IPv6 `NextHeader` field, leaving the IANA-reserved
sentinel 255 for other network layer types; emit a flow event with the
network payload length; and independently attempt a DNS parse.  Returns the
event sent to the flow handler and the DNS record handed to `LogDNS`, when
produced. -/
def classifyPacket (p : Packet) : Option flowEvent × Option classify.DnsMsg :=
  match p.link with
  | some LinkKind.nonEthernet => (none, none)
  | _ =>
    match p.network, p.transport with
    | none, _ => (none, none)
    | some _, none => (none, none)
    | some net, some transport =>
      let transportProtocol : Nat :=
        match net with
        | .v4 _ proto _ => proto
        | .v6 _ nh _ => nh
        | .other _ _ => 255
      let flow : classify.FiveTuple := ⟨net.flow, transport, transportProtocol⟩
      let ev : flowEvent := ⟨flow, net.payloadLen⟩
      let dnsOut : Option classify.DnsMsg :=
        match classify.ParseDns p.dns flow with
        | .ok msg => some msg
        | .error _ => none
      (some ev, dnsOut)

/-! ## Flow aggregation (main.go `flowHandler`)

A flow-aggregator task holds two directional byte counters.  Its mailbox
delivers flow events; a ticker delivers flush ticks.  On a tick with both
counters zero the task terminates (reclamation); otherwise it appends a
FlowLog row with the current counters and zeroes them. -/

structure FHState where
  bytesAB : Nat
  bytesBA : Nat
deriving DecidableEq, Repr

/-- The byte columns of a FlowLog row appended by `LogFlowPeriodic`. -/
structure FlowRow where
  bytesAB : Nat
  bytesBA : Nat
deriving DecidableEq, Repr

/-- An input consumed by the flow handler loop: an event from its channel or
a tick of its flow-log ticker. -/
inductive FlowInput
  | ev (e : flowEvent)
  | tick
deriving DecidableEq, Repr

/-- Direction assignment in `flowHandler`: an event adds to `bytesAB` when
its network source and transport source match direction A (the sources of
the very first event), else to `bytesBA`. -/
def fhApplyEvent (endNetA endTransportA : Endpoint) (s : FHState) (e : flowEvent) : FHState :=
  if e.flow.Network.src = endNetA ∧ e.flow.Transport.src = endTransportA then
    { s with bytesAB := s.bytesAB + e.amount }
  else
    { s with bytesBA := s.bytesBA + e.amount }

/-- Result of running a flow handler on a finite input sequence: the FlowLog
rows emitted, the live state (`none` once the task has terminated), and the
inputs left undelivered after termination. -/
structure FHRun where
  rows : List FlowRow
  fin : Option FHState
  leftover : List FlowInput
deriving DecidableEq, Repr

/-- main.go `flowHandler`, lines 145-197, as a fold over a finite input
sequence. -/
def flowHandlerRun (endNetA endTransportA : Endpoint) :
    FHState → List FlowInput → FHRun
  | s, [] => ⟨[], some s, []⟩
  | s, .ev e :: rest =>
    flowHandlerRun endNetA endTransportA (fhApplyEvent endNetA endTransportA s e) rest
  | s, .tick :: rest =>
    if s.bytesAB = 0 ∧ s.bytesBA = 0 then ⟨[], none, rest⟩
    else
      let r := flowHandlerRun endNetA endTransportA ⟨0, 0⟩ rest
      ⟨⟨s.bytesAB, s.bytesBA⟩ :: r.rows, r.fin, r.leftover⟩

/-- Total bytes over the emitted FlowLog rows. -/
def rowSum (rows : List FlowRow) : Nat :=
  (rows.map (fun r => r.bytesAB + r.bytesBA)).sum

/-- Total bytes of the events in an input sequence. -/
def eventSum (inputs : List FlowInput) : Nat :=
  (inputs.map (fun i => match i with | .ev e => e.amount | .tick => 0)).sum

/-- Bytes still buffered in a live handler (zero once terminated). -/
def pendingOf : Option FHState → Nat
  | some s => s.bytesAB + s.bytesBA
  | none => 0

/-! ## Subscriber aggregation predicates (`UserContext.ShouldLogNow`)

The repository carries two generations of the early-flush predicate.  The
`package main` version (the one wired into main.go's `aggregateUser`) tests
only `outstandingData >= context.DataBalance`; the tdf/internal/types
version adds the `context.DataBalance > 0` guard. -/

structure UserContext where
  DataBalance : Int
deriving DecidableEq, Repr

/-- `UserContext.ShouldLogNow` from the `package main` sources (used by
main.go's `aggregateUser`). -/
def UserContext.ShouldLogNow (context : UserContext) (outstandingData : Int) : Bool :=
  outstandingData ≥ context.DataBalance

namespace types

structure UserContext where
  DataBalance : Int
deriving DecidableEq, Repr

/-- tdf/internal/types/custom.go `UserContext.ShouldLogNow`. -/
def UserContext.ShouldLogNow (context : UserContext) (outstandingData : Int) : Bool :=
  (outstandingData ≥ context.DataBalance) && (context.DataBalance > 0)

end types

/-! ## Storage gateway (internal/storage/dbface.go)

Go's `int64` arithmetic is two's-complement: every add/subtract wraps into
`[-2^63, 2^63)`. -/

def wrap64 (x : Int) : Int := (x + 2 ^ 63) % 2 ^ 64 - 2 ^ 63

def inInt64 (x : Int) : Prop := -(2 ^ 63) ≤ x ∧ x < 2 ^ 63

lemma wrap64_eq_self {x : Int} (h1 : -(2 ^ 63) ≤ x) (h2 : x < 2 ^ 63) :
    wrap64 x = x := by
  unfold wrap64
  omega

namespace storage

/-- The columns of the `customers` row that `LogUsage` and
`UpdateBridgedState` read and write. -/
structure Customer where
  rawDown : Int
  rawUp : Int
  dataBalance : Int
  balance : Int
  bridged : Bool
  enabled : Bool
deriving DecidableEq, Repr

/-- dbface.go `UserStatus` (the currency `decimal` is modelled as an integer,
it is only read and passed through). -/
structure UserStatus where
  UserAddress : Endpoint
  CurrentDataBalance : Int
  PriorDataBalance : Int
  CurrencyBalance : Int
deriving DecidableEq, Repr

/-- The Go zero value `UserStatus{}` returned on every error path. -/
def zeroUserStatus : UserStatus := ⟨⟨0, []⟩, 0, 0, 0⟩

/-- The error taxonomy surfaced by the gateway: `NotFound` for a static_ips
miss, `TransactionLost` for "data loss: unable to commit", `BackendError`
for other I/O failures. -/
inductive DbErr
  | notFound
  | transactionLost
  | backendErr
deriving DecidableEq, Repr

/-- Outcome of one `LogUsage` transaction attempt against the backend:
failure of `Begin`, of the static_ips lookup, of the customers row read, of
the `UPDATE`, or of `Commit` — or a successful commit. -/
inductive UsageOutcome
  | beginFail
  | lookupFail
  | readFail
  | execFail
  | commitFail
  | commitOk
deriving DecidableEq, Repr

/-- The business logic of one `LogUsage` attempt (dbface.go lines 80-98),
computed from the customer row read in that attempt: add the event bytes to
the monotonic counters, subtract them from `data_balance`, and zero a
negative balance.  Returns the row written back and the pre-write balance. -/
def logUsageBody (c : Customer) (up down : Int) : Customer × Int :=
  let rawDown := wrap64 (c.rawDown + down)
  let rawUp := wrap64 (c.rawUp + up)
  let priorDataBalance := c.dataBalance
  let dataBalance := wrap64 (c.dataBalance - up)
  let dataBalance := wrap64 (dataBalance - down)
  let dataBalance := if dataBalance < 0 then 0 else dataBalance
  ({ c with rawDown := rawDown, rawUp := rawUp, dataBalance := dataBalance },
    priorDataBalance)

/-- One iteration of the `LogUsage` retry loop.  An early failure rolls back
and returns the error; a commit failure leaves the row unchanged and lets the
loop continue; a successful commit installs the written row and returns the
status built from it. -/
def logUsageAttempt (c : Customer) (addr : Endpoint) (up down : Int)
    (o : UsageOutcome) : Option (Customer × UserStatus × Option DbErr) :=
  match o with
  | .beginFail => some (c, zeroUserStatus, some .backendErr)
  | .lookupFail => some (c, zeroUserStatus, some .notFound)
  | .readFail => some (c, zeroUserStatus, some .backendErr)
  | .execFail => some (c, zeroUserStatus, some .backendErr)
  | .commitFail => none
  | .commitOk =>
    let (written, prior) := logUsageBody c up down
    some (written, ⟨addr, written.dataBalance, prior, c.balance⟩, none)

/-- dbface.go `LogUsage`: up to three attempts; any non-commit failure
returns immediately; a failed commit retries; after the third failed commit
the call gives up with "data loss: unable to commit".  Returns the committed
customer row, the returned status, and the returned error. -/
def LogUsage (c : Customer) (addr : Endpoint) (up down : Int)
    (o1 o2 o3 : UsageOutcome) : Customer × UserStatus × Option DbErr :=
  match logUsageAttempt c addr up down o1 with
  | some r => r
  | none =>
    match logUsageAttempt c addr up down o2 with
    | some r => r
    | none =>
      match logUsageAttempt c addr up down o3 with
      | some r => r
      | none => (c, zeroUserStatus, some .transactionLost)

/-- Outcome of one `UpdateBridgedState` transaction attempt (no customers
row read occurs there). -/
inductive BridgeOutcome
  | beginFail
  | lookupFail
  | execFail
  | commitFail
  | commitOk
deriving DecidableEq, Repr

/-- The error returned when an `UpdateBridgedState` attempt fails before its
commit (such a failure rolls back and leaves the loop); commit outcomes,
failed or successful, are only warn-logged and fall through. -/
def bridgeEarlyErr : BridgeOutcome → Option DbErr
  | .beginFail => some .backendErr
  | .lookupFail => some .notFound
  | .execFail => some .backendErr
  | .commitFail => none
  | .commitOk => none

/-- dbface.go `UpdateBridgedState`, lines 116-148, translated as written: the
loop body runs for `i = 0, 1, 2`; an early failure returns the error; a
commit outcome — failed or successful — merely logs and falls through to the
next iteration; after the loop the function returns `nil`.  A successful
commit persists the single-column write.  Returns the final customer row,
the returned error, and how many transactions were begun. -/
def UpdateBridgedState (c : Customer) (bridged : Bool)
    (o1 o2 o3 : BridgeOutcome) : Customer × Option DbErr × Nat :=
  match bridgeEarlyErr o1 with
  | some e => (c, some e, 1)
  | none =>
    let c1 := if o1 = .commitOk then { c with bridged := bridged } else c
    match bridgeEarlyErr o2 with
    | some e => (c1, some e, 2)
    | none =>
      let c2 := if o2 = .commitOk then { c1 with bridged := bridged } else c1
      match bridgeEarlyErr o3 with
      | some e => (c2, some e, 3)
      | none =>
        let c3 := if o3 = .commitOk then { c2 with bridged := bridged } else c2
        (c3, none, 3)

end storage

/-! ## Enforcement evaluation (`verifyBalance` and its callers) -/

/-- The single action selected by one `verifyBalance` switch evaluation: the
fast path and a fall-through both do nothing; the zero-balance rule blocks;
each threshold rule logs one message. -/
inductive BalanceAction
  | noAction
  | block
  | warn1MB
  | warn5MB
  | warn10MB
deriving DecidableEq, Repr

/-- The externally visible side effects of a `verifyBalance` case: the
iptables effector call and the bridged-state write.  Threshold warnings only
log. -/
inductive Effect
  | enableFilter (ip : Endpoint)
  | updateBridged (ip : Endpoint) (bridged : Bool)
deriving DecidableEq, Repr

def BalanceAction.sideEffects (ip : Endpoint) : BalanceAction → List Effect
  | .block => [.enableFilter ip, .updateBridged ip false]
  | _ => []

/-- `verifyBalance`: a Go `switch` testing its cases top to bottom and
running only the first that matches — balance above 10 MB exits early, the
exhausted-balance transition blocks, and the 1 MB, 5 MB, 10 MB crossings
each log one message. -/
def verifyBalance (user : storage.UserStatus) : BalanceAction :=
  if user.CurrentDataBalance > 10000000 then .noAction
  else if user.CurrentDataBalance ≤ 0 ∧ user.PriorDataBalance > 0 then .block
  else if user.CurrentDataBalance ≤ 1000000 ∧ user.PriorDataBalance > 1000000 then .warn1MB
  else if user.CurrentDataBalance ≤ 5000000 ∧ user.PriorDataBalance > 5000000 then .warn5MB
  else if user.CurrentDataBalance ≤ 10000000 ∧ user.PriorDataBalance > 10000000 then .warn10MB
  else .noAction

/-- `LogUserPeriodic`: commit the extern buckets through `LogUsage`, log a
failure, and pass the returned status — the zero `UserStatus` whenever
`LogUsage` failed — on to `verifyBalance` unconditionally. -/
def LogUserPeriodic (c : storage.Customer) (user : Endpoint) (extUpBytes extDownBytes : Int)
    (o1 o2 o3 : storage.UsageOutcome) : storage.Customer × BalanceAction :=
  let r := storage.LogUsage c user extUpBytes extDownBytes o1 o2 o3
  (r.1, verifyBalance r.2.1)

/-- `UserContext.Init`: read the subscriber's balance by logging a zero-byte
usage event and cache the returned current balance (the zero status's `0`
when the call failed). -/
def UserContextInit (c : storage.Customer) (user : Endpoint)
    (o1 o2 o3 : storage.UsageOutcome) : storage.Customer × UserContext :=
  let r := storage.LogUsage c user 0 0 o1 o2 o3
  (r.1, ⟨r.2.1.CurrentDataBalance⟩)

/-! Order facts about the embedded gopacket comparison, needed to show that
canonicalization folds the two directions of a flow together. -/

lemma rawLess_asymm {a b : List Nat} (h : rawLess a b = true) :
    rawLess b a = false := by
  induction a generalizing b with
  | nil =>
    cases b with
    | nil => simp [rawLess] at h
    | cons y ys => simp [rawLess]
  | cons x xs ih =>
    cases b with
    | nil => simp [rawLess] at h
    | cons y ys =>
      simp only [rawLess] at h ⊢
      rcases Nat.lt_trichotomy x y with hlt | heq | hgt
      · simp [hlt, Nat.lt_asymm hlt]
      · subst heq
        simp only [lt_irrefl, if_false] at h ⊢
        exact ih h
      · simp [hgt, Nat.lt_asymm hgt] at h


lemma rawLess_antisymm {a b : List Nat} (hab : rawLess a b = false)
    (hba : rawLess b a = false) : a = b := by
  induction a generalizing b with
  | nil =>
    cases b with
    | nil => rfl
    | cons y ys => simp [rawLess] at hab
  | cons x xs ih =>
    cases b with
    | nil => simp [rawLess] at hba
    | cons y ys =>
      simp only [rawLess] at hab hba
      rcases Nat.lt_trichotomy x y with hlt | heq | hgt
      · simp [hlt] at hab
      · subst heq
        simp only [lt_irrefl, if_false] at hab hba
        exact congrArg₂ List.cons rfl (ih hab hba)
      · simp [hgt] at hba

lemma Endpoint.lessThan_asymm {a b : Endpoint} (h : a.lessThan b = true) :
    b.lessThan a = false := by
  simp only [Endpoint.lessThan, Bool.or_eq_true, Bool.and_eq_true,
    decide_eq_true_eq, beq_iff_eq] at h
  simp only [Endpoint.lessThan, Bool.or_eq_false_iff, Bool.and_eq_false_iff,
    decide_eq_false_iff_not, beq_eq_false_iff_ne, ne_eq]
  rcases h with hlt | ⟨heq, hraw⟩
  · exact ⟨Nat.lt_asymm hlt, Or.inl (Nat.ne_of_gt hlt)⟩
  · exact ⟨by omega, Or.inr (rawLess_asymm hraw)⟩

lemma Endpoint.lessThan_antisymm {a b : Endpoint} (hab : a.lessThan b = false)
    (hba : b.lessThan a = false) : a = b := by
  simp only [Endpoint.lessThan, Bool.or_eq_false_iff, Bool.and_eq_false_iff,
    decide_eq_false_iff_not, beq_eq_false_iff_ne, ne_eq] at hab hba
  obtain ⟨hab1, hab2⟩ := hab
  obtain ⟨hba1, hba2⟩ := hba
  have htyp : a.typ = b.typ := by omega
  have hraw : a.raw = b.raw := by
    rcases hab2 with h | h
    · exact absurd htyp h
    rcases hba2 with h' | h'
    · exact absurd htyp.symm h'
    exact rawLess_antisymm h h'
  cases a; cases b
  simp_all

namespace classify

/-- C5: both directions of a bidirectional flow have the same canonical
five-tuple.  Canonicalization orders by network endpoints, breaking ties on
the transport ports when the network endpoints are equal. -/
theorem MakeCanonical_reverse (t : FiveTuple) :
    t.reverse.MakeCanonical = t.MakeCanonical := by
  obtain ⟨⟨ns, nd⟩, ⟨ts, td⟩, proto⟩ := t
  simp only [FiveTuple.reverse, Flow.Reverse, FiveTuple.MakeCanonical]
  by_cases hnet : ns = nd
  · subst hnet
    simp only [if_pos rfl]
    by_cases htr : ts.lessThan td = true
    · simp [htr, Endpoint.lessThan_asymm htr]
    · have htr' : ts.lessThan td = false := Bool.eq_false_iff.mpr htr
      by_cases htd : td.lessThan ts = true
      · simp [htr', htd]
      · have htd' : td.lessThan ts = false := Bool.eq_false_iff.mpr htd
        have heq := Endpoint.lessThan_antisymm htr' htd'
        subst heq
        simp [htr']
  · have hnet' : nd ≠ ns := fun h => hnet h.symm
    simp only [if_neg hnet, if_neg hnet']
    by_cases hns : ns.lessThan nd = true
    · simp [hns, Endpoint.lessThan_asymm hns]
    · have hns' : ns.lessThan nd = false := Bool.eq_false_iff.mpr hns
      by_cases hnd : nd.lessThan ns = true
      · simp [hns', hnd]
      · have hnd' : nd.lessThan ns = false := Bool.eq_false_iff.mpr hnd
        exact absurd (Endpoint.lessThan_antisymm hns' hnd') hnet

end classify

/-- C2 counterexample: the claimed predicate is false of the `package main`
`ShouldLogNow` wired into main.go's `aggregateUser`.  With a cached balance
of 0 and no outstanding bytes the claim requires `false` (the cached balance
is not positive), but the code returns `true`. -/
theorem shouldLogNow_claim_counterexample :
    ¬ ((UserContext.ShouldLogNow ⟨0⟩ 0 = true) ↔ ((0 : Int) ≥ 0 ∧ (0 : Int) > 0)) := by
  decide

/-- C2 (amended): the tdf aggregator's predicate is true iff the outstanding
bytes reach the cached balance and that balance is positive; the
`package main` aggregator's predicate omits the positivity guard and is true
iff the outstanding bytes reach the cached balance. -/
theorem shouldLogNow_amended (ctxM : UserContext) (ctxT : types.UserContext) (out : Int) :
    (types.UserContext.ShouldLogNow ctxT out = true ↔
      out ≥ ctxT.DataBalance ∧ ctxT.DataBalance > 0) ∧
    (UserContext.ShouldLogNow ctxM out = true ↔ out ≥ ctxM.DataBalance) := by
  constructor
  · simp [types.UserContext.ShouldLogNow]
  · simp [UserContext.ShouldLogNow]

/-- Witness for the amended C2 statement at balance 5, outstanding 7. -/
theorem shouldLogNow_amended_witness :
    types.UserContext.ShouldLogNow ⟨5⟩ 7 = true :=
  (shouldLogNow_amended ⟨5⟩ ⟨5⟩ 7).1.mpr (by constructor <;> decide)

/-- C3: one `verifyBalance` evaluation selects exactly one action — nothing
above 10 MB, the block exactly on the positive-to-zero transition, and
otherwise the single lowest threshold crossing — and only the block case has
side effects: the filter insert followed by the bridged-state write. -/
theorem verifyBalance_spec (u : storage.UserStatus) (ip : Endpoint) :
    (u.CurrentDataBalance > 10000000 → verifyBalance u = .noAction) ∧
    (verifyBalance u = .block ↔
      u.CurrentDataBalance ≤ 0 ∧ u.PriorDataBalance > 0) ∧
    (verifyBalance u = .warn1MB ↔
      ¬(u.CurrentDataBalance ≤ 0 ∧ u.PriorDataBalance > 0) ∧
      u.CurrentDataBalance ≤ 1000000 ∧ u.PriorDataBalance > 1000000) ∧
    (verifyBalance u = .warn5MB ↔
      ¬(u.CurrentDataBalance ≤ 0 ∧ u.PriorDataBalance > 0) ∧
      ¬(u.CurrentDataBalance ≤ 1000000 ∧ u.PriorDataBalance > 1000000) ∧
      u.CurrentDataBalance ≤ 5000000 ∧ u.PriorDataBalance > 5000000) ∧
    (verifyBalance u = .warn10MB ↔
      ¬(u.CurrentDataBalance ≤ 0 ∧ u.PriorDataBalance > 0) ∧
      ¬(u.CurrentDataBalance ≤ 1000000 ∧ u.PriorDataBalance > 1000000) ∧
      ¬(u.CurrentDataBalance ≤ 5000000 ∧ u.PriorDataBalance > 5000000) ∧
      u.CurrentDataBalance ≤ 10000000 ∧ u.PriorDataBalance > 10000000) ∧
    ((verifyBalance u).sideEffects ip =
      if u.CurrentDataBalance ≤ 0 ∧ u.PriorDataBalance > 0 then
        [.enableFilter ip, .updateBridged ip false]
      else []) := by
  unfold verifyBalance
  split_ifs with h1 h2 h3 h4 h5 <;>
    refine ⟨?_, ?_, ?_, ?_, ?_, ?_⟩ <;>
    simp_all [BalanceAction.sideEffects] <;>
    omega

/-- Witness for C3 at a 20 MB balance with a 20 MB prior balance. -/
theorem verifyBalance_spec_witness :
    verifyBalance ⟨⟨0, []⟩, 20000000, 20000000, 0⟩ = .noAction :=
  (verifyBalance_spec ⟨⟨0, []⟩, 20000000, 20000000, 0⟩ ⟨0, []⟩).1 (by decide)

/-- C4 exhibit: `UpdateBridgedState` as written neither stops after a
successful commit nor reports a lost transaction.  When all three commits
fail it returns no error and the row is unchanged (the claim requires
`TransactionLost`); when the first commit succeeds it still begins three
transactions (the claim requires it to stop retrying). -/
theorem updateBridgedState_retry_divergence :
    (storage.UpdateBridgedState ⟨0, 0, 0, 0, true, true⟩ false
        .commitFail .commitFail .commitFail
      = (⟨0, 0, 0, 0, true, true⟩, none, 3)) ∧
    (storage.UpdateBridgedState ⟨0, 0, 0, 0, true, true⟩ false
        .commitOk .commitOk .commitOk).2.2 = 3 := by
  decide

/-- When `LogUsage` returns an error, the status it returns is the Go zero
value. -/
lemma logUsage_error_zero_status (c : storage.Customer) (addr : Endpoint)
    (up down : Int) (o1 o2 o3 : storage.UsageOutcome)
    (h : (storage.LogUsage c addr up down o1 o2 o3).2.2.isSome = true) :
    (storage.LogUsage c addr up down o1 o2 o3).2.1 = storage.zeroUserStatus := by
  cases o1 <;> cases o2 <;> cases o3 <;>
    simp_all [storage.LogUsage, storage.logUsageAttempt]

/-- C9: when the usage commit fails, the flush path hands the zero
`UserStatus` to `verifyBalance`, no enforcement rule matches it, and no
effector or bridged-state side effect occurs. -/
theorem logUserPeriodic_failure_no_block (c : storage.Customer) (user : Endpoint)
    (extUp extDown : Int) (o1 o2 o3 : storage.UsageOutcome)
    (h : (storage.LogUsage c user extUp extDown o1 o2 o3).2.2.isSome = true) :
    (storage.LogUsage c user extUp extDown o1 o2 o3).2.1 = storage.zeroUserStatus ∧
    (LogUserPeriodic c user extUp extDown o1 o2 o3).2 = .noAction ∧
    (LogUserPeriodic c user extUp extDown o1 o2 o3).2.sideEffects user = [] := by
  have hz := logUsage_error_zero_status c user extUp extDown o1 o2 o3 h
  refine ⟨hz, ?_, ?_⟩ <;>
    simp [LogUserPeriodic, hz, storage.zeroUserStatus, verifyBalance,
      BalanceAction.sideEffects]

/-- Witness for C9: a static_ips miss on the first attempt. -/
theorem logUserPeriodic_failure_no_block_witness :
    (LogUserPeriodic ⟨0, 0, 50, 0, true, true⟩ ⟨0, []⟩ 1 2
        .lookupFail .commitOk .commitOk).2 = .noAction :=
  (logUserPeriodic_failure_no_block ⟨0, 0, 50, 0, true, true⟩ ⟨0, []⟩ 1 2
    .lookupFail .commitOk .commitOk (by decide)).2.1

/-- C6 counterexample: a packet whose network layer is neither IPv4 nor IPv6
(with a transport layer present) is not dropped — `classifyPacket` still
emits a flow event, carrying the sentinel transport protocol 255. -/
theorem classifyPacket_nonIP_counterexample :
    (classifyPacket
        ⟨none, some (.other ⟨⟨0, [10]⟩, ⟨0, [20]⟩⟩ 100),
          some ⟨⟨1, [1]⟩, ⟨1, [2]⟩⟩, none⟩).1
      = some ⟨⟨⟨⟨0, [10]⟩, ⟨0, [20]⟩⟩, ⟨⟨1, [1]⟩, ⟨1, [2]⟩⟩, 255⟩, 100⟩ ∧
    (classifyPacket
        ⟨none, some (.other ⟨⟨0, [10]⟩, ⟨0, [20]⟩⟩ 100),
          some ⟨⟨1, [1]⟩, ⟨1, [2]⟩⟩, none⟩).1 ≠ none := by
  decide

/-- C6 (amended): for every packet that passes the link gate and has a
non-IP network layer and a transport layer, the derived transport protocol
keeps the sentinel 255 and the packet is forwarded: `classifyPacket` emits a
flow event with protocol 255 and the network payload length (only a warning
is logged). -/
theorem classifyPacket_nonIP_forwards (link : Option LinkKind) (f tr : Flow)
    (len : Nat) (d : Option DnsLayer) (hlink : link ≠ some .nonEthernet) :
    (classifyPacket ⟨link, some (.other f len), some tr, d⟩).1
      = some ⟨⟨f, tr, 255⟩, len⟩ := by
  cases link with
  | none => rfl
  | some l =>
    cases l with
    | ethernet => rfl
    | nonEthernet => exact absurd rfl hlink

/-- Witness for the amended C6 statement on an ethernet-framed packet. -/
theorem classifyPacket_nonIP_forwards_witness :
    (classifyPacket
        ⟨some .ethernet, some (.other ⟨⟨2, [7]⟩, ⟨2, [9]⟩⟩ 42),
          some ⟨⟨3, [5]⟩, ⟨3, [6]⟩⟩, none⟩).1
      = some ⟨⟨⟨⟨2, [7]⟩, ⟨2, [9]⟩⟩, ⟨⟨3, [5]⟩, ⟨3, [6]⟩⟩, 255⟩, 42⟩ :=
  classifyPacket_nonIP_forwards (some .ethernet) ⟨⟨2, [7]⟩, ⟨2, [9]⟩⟩
    ⟨⟨3, [5]⟩, ⟨3, [6]⟩⟩ 42 none (by decide)

/-- `ParseDns` succeeds exactly when `dnsParses` holds of the DNS layer,
independently of the flow argument. -/
lemma parseDns_isSome (dns : Option DnsLayer) (fl : classify.FiveTuple) :
    (classify.ParseDns dns fl).toOption.isSome = dnsParses dns := by
  cases dns with
  | none => rfl
  | some d =>
    simp only [classify.ParseDns, dnsParses]
    by_cases h1 : d.decodeOk
    · by_cases h2 : d.questions.length = 1 <;> simp [h1, h2, Except.toOption]
    · simp [h1, Except.toOption]

/-- The DNS branch of `classifyPacket` is `Except.toOption` of the parse. -/
lemma classify_dnsOut_toOption (dns : Option DnsLayer) (fl : classify.FiveTuple) :
    (match classify.ParseDns dns fl with
      | .ok msg => some msg
      | .error _ => none)
      = (classify.ParseDns dns fl).toOption := by
  cases classify.ParseDns dns fl <;> rfl

/-- C8: a normalized DNS record is handed onward exactly when the packet
passes the link, network and transport gates and its DNS layer parses with
exactly one question; and the DNS layer never influences the flow event, so
a parse failure cannot suppress or alter flow accounting. -/
theorem parseDns_gating_spec (p : Packet) :
    (∀ fl : classify.FiveTuple,
      (classify.ParseDns p.dns fl).toOption.isSome = dnsParses p.dns) ∧
    ((classifyPacket p).2.isSome = true ↔
      p.link ≠ some .nonEthernet ∧ p.network.isSome = true ∧
      p.transport.isSome = true ∧ dnsParses p.dns = true) ∧
    (∀ d : Option DnsLayer,
      (classifyPacket { p with dns := d }).1 = (classifyPacket p).1) := by
  obtain ⟨link, network, transport, dns⟩ := p
  refine ⟨fun fl => parseDns_isSome dns fl, ?_, fun d => ?_⟩
  · rcases link with _ | l
    · cases network with
      | none => simp [classifyPacket]
      | some net =>
        cases transport with
        | none => simp [classifyPacket]
        | some tr =>
          simp [classifyPacket, classify_dnsOut_toOption, parseDns_isSome]
    · cases l with
      | ethernet =>
        cases network with
        | none => simp [classifyPacket]
        | some net =>
          cases transport with
          | none => simp [classifyPacket]
          | some tr =>
            simp [classifyPacket, classify_dnsOut_toOption, parseDns_isSome]
      | nonEthernet => simp [classifyPacket]
  · rcases link with _ | l
    · cases network with
      | none => rfl
      | some net => cases transport with
        | none => rfl
        | some tr => rfl
    · cases l with
      | ethernet => cases network with
        | none => rfl
        | some net => cases transport with
          | none => rfl
          | some tr => rfl
      | nonEthernet => rfl

/-- Witness for C8 on a single-question DNS response packet. -/
theorem parseDns_gating_spec_witness :
    (classifyPacket
        ⟨none, some (.v4 ⟨⟨0, [10]⟩, ⟨0, [20]⟩⟩ 17 80),
          some ⟨⟨5, [0, 53]⟩, ⟨5, [0, 54]⟩⟩,
          some ⟨true, [[1, 2]], 0, 0, 1, [(some [3, 4], 60)]⟩⟩).2.isSome = true :=
  (parseDns_gating_spec
      ⟨none, some (.v4 ⟨⟨0, [10]⟩, ⟨0, [20]⟩⟩ 17 80),
        some ⟨⟨5, [0, 53]⟩, ⟨5, [0, 54]⟩⟩,
        some ⟨true, [[1, 2]], 0, 0, 1, [(some [3, 4], 60)]⟩⟩).2.1.mpr
    (by refine ⟨by decide, rfl, rfl, by decide⟩)

/-- Conservation invariant of the flow handler loop: emitted rows plus the
live counters plus the undelivered events account for the starting counters
plus every event in the input sequence. -/
lemma flowHandlerRun_sum (na ta : Endpoint) (inputs : List FlowInput) :
    ∀ s : FHState,
      rowSum (flowHandlerRun na ta s inputs).rows
        + pendingOf (flowHandlerRun na ta s inputs).fin
        + eventSum (flowHandlerRun na ta s inputs).leftover
      = s.bytesAB + s.bytesBA + eventSum inputs := by
  induction inputs with
  | nil => intro s; simp [flowHandlerRun, rowSum, pendingOf, eventSum]
  | cons i rest ih =>
    intro s
    cases i with
    | ev e =>
      have h := ih (fhApplyEvent na ta s e)
      simp only [flowHandlerRun] at h ⊢
      rw [h]
      unfold fhApplyEvent
      split <;> simp [eventSum] <;> omega
    | tick =>
      by_cases hz : s.bytesAB = 0 ∧ s.bytesBA = 0
      · simp only [flowHandlerRun, if_pos hz, rowSum, pendingOf, eventSum]
        simp [hz.1, hz.2]
      · have h := ih ⟨0, 0⟩
        simp only [flowHandlerRun, if_neg hz]
        simp only [rowSum, pendingOf, eventSum, List.map_cons, List.sum_cons] at h ⊢
        omega

/-- C7: byte conservation per flow.  Starting from zero counters, the bytes
in the emitted FlowLog rows plus the still-buffered bytes plus the bytes of
undelivered events equal the bytes of all events in the input sequence; in
particular once the task has terminated (which happens only on a tick with
both counters zero), every delivered byte sits in an emitted row. -/
theorem flowHandler_conservation (na ta : Endpoint) (inputs : List FlowInput) :
    rowSum (flowHandlerRun na ta ⟨0, 0⟩ inputs).rows
      + pendingOf (flowHandlerRun na ta ⟨0, 0⟩ inputs).fin
      + eventSum (flowHandlerRun na ta ⟨0, 0⟩ inputs).leftover
      = eventSum inputs ∧
    ((flowHandlerRun na ta ⟨0, 0⟩ inputs).fin = none →
      rowSum (flowHandlerRun na ta ⟨0, 0⟩ inputs).rows
        + eventSum (flowHandlerRun na ta ⟨0, 0⟩ inputs).leftover
        = eventSum inputs) := by
  have h := flowHandlerRun_sum na ta inputs ⟨0, 0⟩
  constructor
  · simpa using h
  · intro hfin
    rw [hfin] at h
    simpa [pendingOf] using h

/-- Witness for C7: one 5-byte event, a flush tick, then a reclamation
tick. -/
theorem flowHandler_conservation_witness :
    rowSum (flowHandlerRun ⟨0, []⟩ ⟨0, []⟩ ⟨0, 0⟩
        [.ev ⟨⟨⟨⟨0, []⟩, ⟨0, [1]⟩⟩, ⟨⟨0, []⟩, ⟨0, [2]⟩⟩, 6⟩, 5⟩, .tick, .tick]).rows
      + eventSum (flowHandlerRun ⟨0, []⟩ ⟨0, []⟩ ⟨0, 0⟩
        [.ev ⟨⟨⟨⟨0, []⟩, ⟨0, [1]⟩⟩, ⟨⟨0, []⟩, ⟨0, [2]⟩⟩, 6⟩, 5⟩, .tick, .tick]).leftover
      = eventSum [.ev ⟨⟨⟨⟨0, []⟩, ⟨0, [1]⟩⟩, ⟨⟨0, []⟩, ⟨0, [2]⟩⟩, 6⟩, 5⟩, .tick, .tick] :=
  (flowHandler_conservation ⟨0, []⟩ ⟨0, []⟩
    [.ev ⟨⟨⟨⟨0, []⟩, ⟨0, [1]⟩⟩, ⟨⟨0, []⟩, ⟨0, [2]⟩⟩, 6⟩, 5⟩, .tick, .tick]).2 (by decide)

/-- When no add or subtract leaves the int64 range, the business logic of a
`LogUsage` attempt is plain arithmetic with the clamp written as a `max`. -/
lemma logUsageBody_eq (c : storage.Customer) (up down : Int)
    (hup : 0 ≤ up) (hdown : 0 ≤ down)
    (hrup : inInt64 c.rawUp) (hrdown : inInt64 c.rawDown)
    (hbal : inInt64 c.dataBalance)
    (hupCap : c.rawUp + up < 2 ^ 63) (hdownCap : c.rawDown + down < 2 ^ 63)
    (hsub : -(2 ^ 63) ≤ c.dataBalance - up - down) :
    storage.logUsageBody c up down =
      ({ c with
          rawDown := c.rawDown + down
          rawUp := c.rawUp + up
          dataBalance := max (c.dataBalance - (up + down)) 0 }, c.dataBalance) := by
  obtain ⟨hrup1, hrup2⟩ := hrup
  obtain ⟨hrdown1, hrdown2⟩ := hrdown
  obtain ⟨hbal1, hbal2⟩ := hbal
  have h1 : wrap64 (c.rawDown + down) = c.rawDown + down :=
    wrap64_eq_self (by omega) (by omega)
  have h2 : wrap64 (c.rawUp + up) = c.rawUp + up :=
    wrap64_eq_self (by omega) (by omega)
  have h3 : wrap64 (c.dataBalance - up) = c.dataBalance - up :=
    wrap64_eq_self (by omega) (by omega)
  have h4 : wrap64 (c.dataBalance - up - down) = c.dataBalance - up - down :=
    wrap64_eq_self (by omega) (by omega)
  have h5 : (if c.dataBalance - up - down < 0 then (0 : Int)
      else c.dataBalance - up - down) = max (c.dataBalance - (up + down)) 0 := by
    split <;> omega
  simp only [storage.logUsageBody, h1, h2, h3, h4, h5]

/-- A `LogUsage` call that returns no error committed the row computed by
the business logic and returned the status built from it. -/
lemma logUsage_success_eq (c : storage.Customer) (addr : Endpoint)
    (up down : Int) (o1 o2 o3 : storage.UsageOutcome)
    (h : (storage.LogUsage c addr up down o1 o2 o3).2.2 = none) :
    storage.LogUsage c addr up down o1 o2 o3
      = ((storage.logUsageBody c up down).1,
          ⟨addr, (storage.logUsageBody c up down).1.dataBalance,
            (storage.logUsageBody c up down).2, c.balance⟩, none) := by
  rcases hbody : storage.logUsageBody c up down with ⟨w, p⟩
  cases o1 <;> cases o2 <;> cases o3 <;>
    simp_all [storage.LogUsage, storage.logUsageAttempt, hbody]

/-- C1: a successful `LogUsage(ip, up, down)` (amounts non-negative, no
int64 overflow) advances the monotonic counters by exactly `up` and `down`,
commits the prior balance minus `up + down` clamped at zero, and returns the
committed post-write balance as `current` and the pre-write balance as
`prior`; the returned current balance is non-negative. -/
theorem logUsage_success_spec (c : storage.Customer) (addr : Endpoint)
    (up down : Int) (o1 o2 o3 : storage.UsageOutcome)
    (hup : 0 ≤ up) (hdown : 0 ≤ down)
    (hrup : inInt64 c.rawUp) (hrdown : inInt64 c.rawDown)
    (hbal : inInt64 c.dataBalance)
    (hupCap : c.rawUp + up < 2 ^ 63) (hdownCap : c.rawDown + down < 2 ^ 63)
    (hsub : -(2 ^ 63) ≤ c.dataBalance - up - down)
    (hsucc : (storage.LogUsage c addr up down o1 o2 o3).2.2 = none) :
    (storage.LogUsage c addr up down o1 o2 o3).1.rawUp = c.rawUp + up ∧
    (storage.LogUsage c addr up down o1 o2 o3).1.rawDown = c.rawDown + down ∧
    (storage.LogUsage c addr up down o1 o2 o3).1.dataBalance
      = max (c.dataBalance - (up + down)) 0 ∧
    (storage.LogUsage c addr up down o1 o2 o3).2.1.CurrentDataBalance
      = (storage.LogUsage c addr up down o1 o2 o3).1.dataBalance ∧
    (storage.LogUsage c addr up down o1 o2 o3).2.1.PriorDataBalance
      = c.dataBalance ∧
    0 ≤ (storage.LogUsage c addr up down o1 o2 o3).2.1.CurrentDataBalance := by
  rw [logUsage_success_eq c addr up down o1 o2 o3 hsucc,
    logUsageBody_eq c up down hup hdown hrup hrdown hbal hupCap hdownCap hsub]
  refine ⟨rfl, rfl, rfl, rfl, rfl, ?_⟩
  simp only
  omega

/-- Witness for C1: a 7-byte commit against a 100-byte balance, succeeding
on the second attempt. -/
theorem logUsage_success_spec_witness :
    (storage.LogUsage ⟨10, 20, 100, 0, true, true⟩ ⟨0, []⟩ 3 4
        .commitFail .commitOk .commitOk).1.rawUp = 20 + 3 :=
  (logUsage_success_spec ⟨10, 20, 100, 0, true, true⟩ ⟨0, []⟩ 3 4
    .commitFail .commitOk .commitOk (by decide) (by decide)
    (by constructor <;> decide) (by constructor <;> decide)
    (by constructor <;> decide) (by decide) (by decide) (by decide)
    (by decide)).1

/-- C10: reading the balance through a successful zero-byte `LogUsage` —
the call `UserContext.Init` makes — leaves an account with a non-negative
stored balance unchanged and returns that balance as both `current` and
`prior`; but when the stored balance is negative, the nominally read-only
call rewrites the row with `data_balance` clamped to zero. -/
theorem userContextInit_read_spec (c : storage.Customer) (user : Endpoint)
    (o1 o2 o3 : storage.UsageOutcome)
    (hrup : inInt64 c.rawUp) (hrdown : inInt64 c.rawDown)
    (hbal : inInt64 c.dataBalance)
    (hsucc : (storage.LogUsage c user 0 0 o1 o2 o3).2.2 = none) :
    (0 ≤ c.dataBalance →
      (storage.LogUsage c user 0 0 o1 o2 o3).1 = c ∧
      (storage.LogUsage c user 0 0 o1 o2 o3).2.1.CurrentDataBalance
        = c.dataBalance ∧
      (storage.LogUsage c user 0 0 o1 o2 o3).2.1.PriorDataBalance
        = c.dataBalance ∧
      (UserContextInit c user o1 o2 o3).2.DataBalance = c.dataBalance) ∧
    (c.dataBalance < 0 →
      (storage.LogUsage c user 0 0 o1 o2 o3).1 = { c with dataBalance := 0 } ∧
      (storage.LogUsage c user 0 0 o1 o2 o3).1 ≠ c ∧
      (storage.LogUsage c user 0 0 o1 o2 o3).2.1.PriorDataBalance
        = c.dataBalance) := by
  have hbody := logUsageBody_eq c 0 0 le_rfl le_rfl hrup hrdown hbal
    (by obtain ⟨h1, h2⟩ := hrup; omega) (by obtain ⟨h1, h2⟩ := hrdown; omega)
    (by obtain ⟨h1, h2⟩ := hbal; omega)
  have heq := logUsage_success_eq c user 0 0 o1 o2 o3 hsucc
  rw [hbody] at heq
  simp only [add_zero, sub_zero] at heq
  refine ⟨fun hb => ?_, fun hb => ?_⟩
  · have hmax : max c.dataBalance 0 = c.dataBalance := by omega
    refine ⟨?_, ?_, ?_, ?_⟩ <;> simp [UserContextInit, heq, hmax]
  · have hmax : max c.dataBalance 0 = 0 := by omega
    refine ⟨?_, ?_, ?_⟩
    · simp [heq, hmax]
    · rw [heq]
      intro h
      have h2 := congrArg storage.Customer.dataBalance h
      simp [hmax] at h2
      omega
    · simp [heq]

/-- Witness for C10 on a negative stored balance: the zero-byte read clamps
the balance to zero. -/
theorem userContextInit_read_spec_witness :
    (storage.LogUsage ⟨10, 20, -50, 0, true, true⟩ ⟨0, []⟩ 0 0
        .commitOk .commitOk .commitOk).1
      = { rawDown := 10, rawUp := 20, dataBalance := 0, balance := 0,
          bridged := true, enabled := true : storage.Customer } :=
  ((userContextInit_read_spec ⟨10, 20, -50, 0, true, true⟩ ⟨0, []⟩
    .commitOk .commitOk .commitOk (by constructor <;> decide)
    (by constructor <;> decide) (by constructor <;> decide)
    (by decide)).2 (by decide)).1

end Haulage
